import Mathlib

/-!
Verification of the per-track media synchronizer (`pkg/synchronizer/track.go`).

The Go code is shallowly embedded as follows:
* `uint16` values (sequence numbers, `snOffset`) are `Nat`s kept below `2 ^ 16`;
  wrapping arithmetic is written out with explicit `% 65536`.
* `uint32` values (transport timestamps) are `Nat`s below `2 ^ 32`.
* `int64` values (`lastTS`, `firstTS`, `frameDuration`, `inserted`,
  `ptsOffset`) and `time.Duration` values (PTS, nanoseconds) are unbounded
  `Int`s: the Go code performs all of its 64-bit arithmetic far from the
  overflow boundary.
* The `float64` quantity `rtpDuration` (nanoseconds per RTP unit) and the
  `math.Round` calls on products with it are modelled exactly over `ℚ`;
  `goRound` is Go's `math.Round` (round half away from zero).
* In-place mutation of the caller's packet and of the synchronizer is made
  explicit: every operation returns the new synchronizer state together with
  the (possibly rewritten) packet(s).
* `GetPTS` returns `Option Int`: `some pts` for a normal return and `none`
  for the `io.EOF` end-of-stream signal.
-/

namespace LivekitSync

/-- Go constant `maxSNDropout = 3000` (max sequence number skip). -/
def maxSNDropout : Nat := 3000

/-- Go constant `uint32Overflow int64 = 4294967296`. -/
def uint32Overflow : Int := 4294967296

/-- An RTP packet header as far as the synchronizer reads and writes it:
a 16-bit sequence number and a 32-bit transport timestamp. -/
structure RtpPacket where
  sequenceNumber : Nat
  timestamp : Nat
  deriving Repr, DecidableEq

/-- State of `TrackSynchronizer` (track.go).  Field names follow the source. -/
structure TrackSynchronizer where
  rtpDuration : ℚ
  frameDuration : Int
  defaultFrameDuration : Int
  startedAt : Int
  firstTS : Int
  maxPTS : Int
  lastSN : Nat
  lastTS : Int
  lastPTS : Int
  lastValid : Bool
  inserted : Int
  snOffset : Nat
  ptsOffset : Int
  lastPTSDrift : Int
  deriving Repr

/-- Go's `math.Round`: round half away from zero, here on exact rationals. -/
def goRound (x : ℚ) : Int :=
  if x < 0 then -⌊-x + 1/2⌋ else ⌊x + 1/2⌋

/-- `newTrackSynchronizer` (track.go): seeds the per-unit duration from the
clock rate and picks the default frame duration from the media kind
(audio: 20 ms worth of units; video: 1/24 s worth). -/
def newTrackSynchronizer (clockRate : ℚ) (isAudio : Bool) : TrackSynchronizer :=
  { rtpDuration := 1000000000 / clockRate
    frameDuration := 0
    defaultFrameDuration := if isAudio then ⌊clockRate / 50⌋ else ⌊clockRate / 24⌋
    startedAt := 0
    firstTS := 0
    maxPTS := 0
    lastSN := 0
    lastTS := 0
    lastPTS := 0
    lastValid := false
    inserted := 0
    snOffset := 0
    ptsOffset := 0
    lastPTSDrift := 0 }

/-- `Initialize` (track.go): anchors the track.  `sessionStartedAt` is the
value returned by the session's `getOrSetStartedAt(now)`. -/
def Initialize (t : TrackSynchronizer) (pkt : RtpPacket) (now sessionStartedAt : Int) :
    TrackSynchronizer :=
  { t with startedAt := now
           firstTS := (pkt.timestamp : Int)
           ptsOffset := now - sessionStartedAt }

/-- `getFrameDurationRTP` (track.go): learned frame duration if recorded,
else the default. -/
def getFrameDurationRTP (t : TrackSynchronizer) : Int :=
  if t.frameDuration ≠ 0 then t.frameDuration else t.defaultFrameDuration

/-- `getElapsed` (track.go): nanoseconds elapsed from `firstTS` to `ts`. -/
def getElapsed (t : TrackSynchronizer) (ts : Int) : Int :=
  goRound (((ts - t.firstTS : Int) : ℚ) * t.rtpDuration)

/-- The loop `for ts < t.lastTS { ts += uint32Overflow }` in `adjust`. -/
def unwrapTS (lastTS : Int) (ts : Int) : Int :=
  if ts < lastTS then unwrapTS lastTS (ts + uint32Overflow) else ts
termination_by (lastTS - ts).toNat
decreasing_by
  have h32 : uint32Overflow = 4294967296 := rfl
  simp_wf
  omega

/-- The gap-detection condition of `adjust` (track.go lines 122-124), on the
offset-corrected sequence number: a previous timestamp exists and the
corrected sequence number differs from `lastSN` by more than the dropout
threshold in both wraparound directions. -/
def resetTriggered (t : TrackSynchronizer) (pkt : RtpPacket) : Prop :=
  t.lastTS ≠ 0 ∧
    maxSNDropout < ((pkt.sequenceNumber + t.snOffset) % 65536 + 65536 - t.lastSN) % 65536 ∧
    maxSNDropout < (t.lastSN + 65536 - (pkt.sequenceNumber + t.snOffset) % 65536) % 65536

instance (t : TrackSynchronizer) (pkt : RtpPacket) : Decidable (resetTriggered t pkt) := by
  unfold resetTriggered
  infer_instance

/-- Result of `adjust`: the mutated synchronizer, the mutated packet, and the
returned `(ts, pts, valid)` triple. -/
structure AdjustResult where
  t : TrackSynchronizer
  pkt : RtpPacket
  ts : Int
  pts : Int
  valid : Bool
  deriving Repr

/-- `adjust` (track.go): accounts for uint32 overflow and resets sequence
numbers / RTP time if necessary.  The first step `pkt.SequenceNumber +=
t.snOffset` is reflected in the `sequenceNumber` of the returned packet. -/
def adjust (t : TrackSynchronizer) (pkt : RtpPacket) : AdjustResult :=
  let sn := (pkt.sequenceNumber + t.snOffset) % 65536
  if resetTriggered t pkt then
    let frameDuration := getFrameDurationRTP t
    let tsOffset := (t.inserted + 1) * frameDuration
    let ts := t.lastTS + tsOffset
    { t := { t with
        snOffset := (t.snOffset + (t.lastSN + 1 + 65536 - sn) % 65536) % 65536
        firstTS := t.firstTS + ((pkt.timestamp : Int) - ts) }
      pkt := { pkt with sequenceNumber := (t.lastSN + 1) % 65536 }
      ts := ts
      pts := t.lastPTS + goRound ((tsOffset : ℚ) * t.rtpDuration)
      valid := false }
  else
    let ts := unwrapTS t.lastTS (pkt.timestamp : Int)
    if ts = t.lastTS then
      { t := t
        pkt := { pkt with sequenceNumber := sn }
        ts := ts
        pts := t.lastPTS
        valid := t.lastValid }
    else
      { t := t
        pkt := { pkt with sequenceNumber := sn }
        ts := ts
        pts := getElapsed t ts + t.ptsOffset
        valid := true }

/-- Result of `GetPTS`: the mutated synchronizer, the mutated packet, and
either `some pts` or `none` (the `io.EOF` signal). -/
structure GetPTSResult where
  t : TrackSynchronizer
  pkt : RtpPacket
  result : Option Int
  deriving Repr

/-- `GetPTS` (track.go): runs `adjust`, clears the inserted-frame counter,
learns the frame duration from consecutive valid packets, signals EOF past
`maxPTS`, and otherwise updates the previous-packet snapshot. -/
def GetPTS (t : TrackSynchronizer) (pkt : RtpPacket) : GetPTSResult :=
  let r := adjust t pkt
  let t1 := { r.t with inserted := 0 }
  let t2 : TrackSynchronizer :=
    if r.valid = true ∧ t1.lastValid = true ∧
        r.pkt.sequenceNumber = (t1.lastSN + 1) % 65536 then
      { t1 with frameDuration := r.ts - t1.lastTS }
    else t1
  if 0 < t2.maxPTS ∧ (t2.maxPTS < r.pts ∨ r.valid = false) then
    { t := t2, pkt := r.pkt, result := none }
  else
    { t := { t2 with
        lastTS := r.ts
        lastSN := r.pkt.sequenceNumber
        lastPTS := r.pts
        lastValid := r.valid }
      pkt := r.pkt
      result := some r.pts }

/-- Result of `insertFrameBefore`: the mutated synchronizer, the (possibly
rewritten) synthetic packet, the (possibly mutated) next packet, the returned
PTS, and whether the frame was inserted. -/
structure InsertResult where
  t : TrackSynchronizer
  pkt : RtpPacket
  next : Option RtpPacket
  pts : Int
  ok : Bool
  deriving Repr

/-- The success tail of `insertFrameBefore` (track.go lines 192-197):
overwrite the packet's sequence number and timestamp and return the
synthetic PTS. -/
def insertAccept (t : TrackSynchronizer) (pkt : RtpPacket) (next : Option RtpPacket)
    (ts frameDurationRTP : Int) : InsertResult :=
  { t := t
    pkt := { pkt with
      sequenceNumber := (t.lastSN + (t.inserted % 65536).toNat) % 65536
      timestamp := (ts % uint32Overflow).toNat }
    next := next
    pts := t.lastPTS +
      goRound ((frameDurationRTP : ℚ) * t.rtpDuration * (t.inserted : ℚ))
    ok := true }

/-- `insertFrameBefore` (track.go): bump the inserted counter and the
sequence-number offset, invalidate cadence learning, and, when a next packet
is supplied, refuse the insertion if the synthetic frame would run past the
next packet's adjusted timestamp. -/
def insertFrameBefore (t : TrackSynchronizer) (pkt : RtpPacket)
    (next : Option RtpPacket) : InsertResult :=
  let t1 := { t with
    inserted := t.inserted + 1
    snOffset := (t.snOffset + 1) % 65536
    lastValid := false }
  let frameDurationRTP := getFrameDurationRTP t1
  let ts := t1.lastTS + t1.inserted * frameDurationRTP
  match next with
  | some nxt =>
      let r := adjust t1 nxt
      if r.ts < ts + frameDurationRTP then
        { t := r.t, pkt := pkt, next := some r.pkt, pts := 0, ok := false }
      else
        insertAccept r.t pkt (some r.pkt) ts frameDurationRTP
  | none => insertAccept t1 pkt none ts frameDurationRTP

/-- `InsertFrame` (track.go): insertion with no upcoming-packet check. -/
def InsertFrame (t : TrackSynchronizer) (pkt : RtpPacket) : InsertResult :=
  insertFrameBefore t pkt none

/-- `GetFrameDuration` (track.go): the learned (or default) frame duration
converted to wall-clock nanoseconds. -/
def GetFrameDuration (t : TrackSynchronizer) : Int :=
  goRound ((getFrameDurationRTP t : ℚ) * t.rtpDuration)

/-- `onSenderReport` (track.go): `expected` is the sender report's absolute
send time minus the session NTP start (`NtpTime(pkt.NTPTime).Time().Sub(ntpStart)`),
here passed as the two nanosecond instants. -/
def onSenderReport (t : TrackSynchronizer) (ntpSendTime ntpStart : Int)
    (pts : Int) : TrackSynchronizer :=
  let expected := ntpSendTime - ntpStart
  if pts ≠ expected then
    { t with ptsOffset := t.ptsOffset + (expected - pts) }
  else t

/-- Feed a list of packets through `GetPTS` in order, collecting each call's
outcome (`some pts` or the EOF signal). -/
def runGetPTS (t : TrackSynchronizer) : List RtpPacket → TrackSynchronizer × List (Option Int)
  | [] => (t, [])
  | p :: ps =>
      let r := GetPTS t p
      let rest := runGetPTS r.t ps
      (rest.1, r.result :: rest.2)

/-- No call in the run takes the reset-repair branch of `adjust`. -/
def NoResetRun (t : TrackSynchronizer) : List RtpPacket → Prop
  | [] => True
  | p :: ps => ¬resetTriggered t p ∧ NoResetRun (GetPTS t p).t ps

/-- The presentation timestamp the normal branch of `adjust` assigns to an
adjusted timestamp `ts`. -/
def ptsAt (t : TrackSynchronizer) (ts : Int) : Int :=
  getElapsed t ts + t.ptsOffset

/-- The state after the three unconditional side effects at the top of
`insertFrameBefore` (`t.inserted++`, `t.snOffset++`, `t.lastValid = false`). -/
@[reducible] def insertBumped (t : TrackSynchronizer) : TrackSynchronizer :=
  { t with
    inserted := t.inserted + 1
    snOffset := (t.snOffset + 1) % 65536
    lastValid := false }

/-- The state invariant backing PTS monotonicity: the recorded previous PTS
does not exceed the PTS the current anchor would assign to the recorded
previous timestamp. -/
def PTSInv (t : TrackSynchronizer) : Prop :=
  t.lastPTS ≤ ptsAt t t.lastTS

/-! ### Concrete states and packets used by witnesses and counterexamples -/

/-- A mid-stream state with a positive snOffsetless anchor: clock rate
10^9 (so one RTP unit is exactly 1 ns), learned frame duration 960. -/
def tW2 : TrackSynchronizer :=
  { rtpDuration := 1, frameDuration := 960, defaultFrameDuration := 960
    startedAt := 0, firstTS := 1000, maxPTS := 0
    lastSN := 100, lastTS := 1000, lastPTS := 0, lastValid := true
    inserted := 0, snOffset := 0, ptsOffset := 0, lastPTSDrift := 0 }

/-- A packet whose sequence number jumps by 4900 (> 3000 both ways). -/
def pW2 : RtpPacket := { sequenceNumber := 5000, timestamp := 2000 }

/-- The spec's gap-repair example state: `lastSN = 100`, `snOffset = 0`. -/
def tW3 : TrackSynchronizer :=
  { rtpDuration := 1, frameDuration := 960, defaultFrameDuration := 960
    startedAt := 0, firstTS := 1000, maxPTS := 0
    lastSN := 100, lastTS := 960, lastPTS := 0, lastValid := true
    inserted := 0, snOffset := 0, ptsOffset := 0, lastPTSDrift := 0 }

/-- The spec's gap-repair example packet: raw sequence number 5000. -/
def pW3 : RtpPacket := { sequenceNumber := 5000, timestamp := 4000 }

/-- A state whose sequence-number offset is nonzero. -/
def tW5 : TrackSynchronizer :=
  { rtpDuration := 1, frameDuration := 960, defaultFrameDuration := 960
    startedAt := 0, firstTS := 1000, maxPTS := 0
    lastSN := 10, lastTS := 1000, lastPTS := 0, lastValid := true
    inserted := 0, snOffset := 5, ptsOffset := 0, lastPTSDrift := 0 }

/-- An in-order packet (corrected sequence number 15 = 10 + 5). -/
def pW5 : RtpPacket := { sequenceNumber := 10, timestamp := 2000 }

/-- Witness state for frame insertion: frame duration 960 RTP units,
1 ns per unit, previous frame at RTP time 1000 / PTS 0. -/
def tW6 : TrackSynchronizer :=
  { rtpDuration := 1, frameDuration := 960, defaultFrameDuration := 960
    startedAt := 0, firstTS := 1000, maxPTS := 0
    lastSN := 10, lastTS := 1000, lastPTS := 0, lastValid := true
    inserted := 0, snOffset := 0, ptsOffset := 0, lastPTSDrift := 0 }

/-- The synthetic packet handed to the insertion operations. -/
def pW6 : RtpPacket := { sequenceNumber := 0, timestamp := 0 }

/-- A next packet whose adjusted timestamp 2920 equals the synthetic frame's
end (1000 + 960 + 960): the boundary case. -/
def nW6boundary : RtpPacket := { sequenceNumber := 11, timestamp := 2920 }

/-- A next packet far enough out (adjusted timestamp 4000) for insertion. -/
def nW6room : RtpPacket := { sequenceNumber := 11, timestamp := 4000 }

/-- A next packet too close (adjusted timestamp 2000 < 2920): refusal. -/
def nW9 : RtpPacket := { sequenceNumber := 11, timestamp := 2000 }

/-- Cadence-learning witness state: clock rate 48000. -/
def tW7 : TrackSynchronizer :=
  { rtpDuration := 1000000000 / 48000, frameDuration := 0
    defaultFrameDuration := 960
    startedAt := 0, firstTS := 1000, maxPTS := 0
    lastSN := 5, lastTS := 1000, lastPTS := 0, lastValid := true
    inserted := 0, snOffset := 0, ptsOffset := 0, lastPTSDrift := 0 }

/-- The next sequential packet, 960 RTP units (20 ms at 48000) later. -/
def pW7 : RtpPacket := { sequenceNumber := 6, timestamp := 1960 }

/-- Cadence-learning counterexample state: clock rate 48000, previous
packet valid with `lastTS = 1960`. -/
def tX7 : TrackSynchronizer :=
  { rtpDuration := 1000000000 / 48000, frameDuration := 0
    defaultFrameDuration := 960
    startedAt := 0, firstTS := 1000, maxPTS := 0
    lastSN := 5, lastTS := 1960, lastPTS := 20000000, lastValid := true
    inserted := 0, snOffset := 0, ptsOffset := 0, lastPTSDrift := 0 }

/-- A duplicate-timestamp packet with the next sequence number (e.g. the
second packet of one video frame): same transport timestamp 1960. -/
def pX7 : RtpPacket := { sequenceNumber := 6, timestamp := 1960 }

/-- Monotonicity witness state: satisfies `PTSInv` (lastPTS equals the PTS
of the recorded last timestamp). -/
def tW1 : TrackSynchronizer :=
  { rtpDuration := 1, frameDuration := 960, defaultFrameDuration := 960
    startedAt := 0, firstTS := 1000, maxPTS := 0
    lastSN := 5, lastTS := 1000, lastPTS := 0, lastValid := true
    inserted := 0, snOffset := 0, ptsOffset := 0, lastPTSDrift := 0 }

/-- An in-order packet for the monotonicity witness run. -/
def pW1 : RtpPacket := { sequenceNumber := 6, timestamp := 1960 }

/-- First packet of the PTS-monotonicity counterexample trace (clock rate
10^9, audio, so `rtpDuration = 1` and `defaultFrameDuration = 2 * 10^7`). -/
def pX1 : RtpPacket := { sequenceNumber := 1, timestamp := 1000 }

/-- The counterexample track state right after `Initialize` on `pX1` (its
reachability `tX0 = Initialize (newTrackSynchronizer 1000000000 true) pX1 0 0`
is part of the counterexample theorem). -/
def tX0 : TrackSynchronizer :=
  { rtpDuration := 1, frameDuration := 0, defaultFrameDuration := 20000000
    startedAt := 0, firstTS := 1000, maxPTS := 0
    lastSN := 0, lastTS := 0, lastPTS := 0, lastValid := false
    inserted := 0, snOffset := 0, ptsOffset := 0, lastPTSDrift := 0 }

/-- The counterexample state after `GetPTS tX0 pX1` (returned PTS 0). -/
def tX1 : TrackSynchronizer :=
  { rtpDuration := 1, frameDuration := 0, defaultFrameDuration := 20000000
    startedAt := 0, firstTS := 1000, maxPTS := 0
    lastSN := 1, lastTS := 1000, lastPTS := 0, lastValid := true
    inserted := 0, snOffset := 0, ptsOffset := 0, lastPTSDrift := 0 }

/-- The counterexample state after the reset-repair on `pX2` (returned PTS
20000000): `firstTS` is re-anchored to `pX2`'s raw timestamp domain. -/
def tX2 : TrackSynchronizer :=
  { rtpDuration := 1, frameDuration := 0, defaultFrameDuration := 20000000
    startedAt := 0, firstTS := 3980000000, maxPTS := 0
    lastSN := 2, lastTS := 20001000, lastPTS := 20000000, lastValid := false
    inserted := 0, snOffset := 15538, ptsOffset := 0, lastPTSDrift := 0 }

/-- Second packet: a stream restart (sequence jump of 49999, raw timestamp
near the top of the 32-bit range) that triggers the reset-repair branch. -/
def pX2 : RtpPacket := { sequenceNumber := 50000, timestamp := 4000000000 }

/-- Third packet: sequence number continues from the restart, but its raw
timestamp is small relative to the new anchor (yet above `lastTS`, so no
wrap correction and no reset fires). -/
def pX3 : RtpPacket := { sequenceNumber := 50001, timestamp := 30000000 }

/-! ### Helper lemmas about `goRound` and `unwrapTS` -/

theorem goRound_mono {x y : ℚ} (h : x ≤ y) : goRound x ≤ goRound y := by
  unfold goRound
  split
  · split
    · have hxy : -y + 1/2 ≤ -x + 1/2 := by linarith
      have := Int.floor_le_floor hxy
      omega
    · have h0 : (0 : Int) ≤ ⌊y + 1/2⌋ := by
        have hy : ¬y < 0 := by assumption
        have : (0 : ℚ) ≤ y + 1/2 := by push_neg at hy; linarith
        exact Int.floor_nonneg.mpr this
      have h1 : (0 : Int) ≤ ⌊-x + 1/2⌋ := by
        have hx : x < 0 := by assumption
        have : (0 : ℚ) ≤ -x + 1/2 := by linarith
        exact Int.floor_nonneg.mpr this
      omega
  · split
    · have hx : ¬x < 0 := by assumption
      have hy : y < 0 := by assumption
      push_neg at hx
      linarith
    · exact Int.floor_le_floor (by linarith)

theorem goRound_le (x : ℚ) : (goRound x : ℚ) ≤ x + 1/2 := by
  unfold goRound
  split
  · push_cast
    have := Int.sub_one_lt_floor (-x + 1/2)
    linarith
  · exact Int.floor_le _

theorem goRound_ge (x : ℚ) : x - 1/2 ≤ (goRound x : ℚ) := by
  unfold goRound
  split
  · push_cast
    have := Int.floor_le (-x + 1/2)
    linarith
  · have := Int.sub_one_lt_floor (x + 1/2)
    linarith

theorem goRound_intCast (n : Int) : goRound (n : ℚ) = n := by
  unfold goRound
  split
  · rw [show -(n : ℚ) + 1/2 = ((-n : Int) : ℚ) + (1/2 : ℚ) by push_cast; ring,
      Int.floor_int_add, show ⌊(1/2 : ℚ)⌋ = 0 by norm_num]
    omega
  · rw [show (n : ℚ) + 1/2 = ((n : Int) : ℚ) + (1/2 : ℚ) by norm_num,
      Int.floor_int_add, show ⌊(1/2 : ℚ)⌋ = 0 by norm_num]
    omega

theorem le_unwrapTS (lastTS ts : Int) : lastTS ≤ unwrapTS lastTS ts := by
  rw [unwrapTS]
  split
  · exact le_unwrapTS lastTS (ts + uint32Overflow)
  · omega
termination_by (lastTS - ts).toNat
decreasing_by
  have h32 : uint32Overflow = 4294967296 := rfl
  simp_wf
  omega

theorem unwrapTS_of_ge {lastTS ts : Int} (h : lastTS ≤ ts) :
    unwrapTS lastTS ts = ts := by
  rw [unwrapTS]
  simp [not_lt.mpr h]

/-! ### Helper lemmas about `adjust` and `GetPTS` -/

theorem adjust_t_of_not_reset {t : TrackSynchronizer} {pkt : RtpPacket}
    (h : ¬resetTriggered t pkt) : (adjust t pkt).t = t := by
  unfold adjust
  simp only [if_neg h]
  split <;> rfl

theorem adjust_ts_of_not_reset {t : TrackSynchronizer} {pkt : RtpPacket}
    (h : ¬resetTriggered t pkt) :
    (adjust t pkt).ts = unwrapTS t.lastTS (pkt.timestamp : Int) := by
  unfold adjust
  simp only [if_neg h]
  split <;> rfl

theorem adjust_pts_of_not_reset {t : TrackSynchronizer} {pkt : RtpPacket}
    (h : ¬resetTriggered t pkt) :
    (adjust t pkt).pts =
      if (adjust t pkt).ts = t.lastTS then t.lastPTS else ptsAt t (adjust t pkt).ts := by
  rw [adjust_ts_of_not_reset h]
  unfold adjust ptsAt
  simp only [if_neg h]
  split
  · next hcond => simp [if_pos hcond]
  · next hcond => simp [if_neg hcond]

theorem adjust_pkt_of_not_reset {t : TrackSynchronizer} {pkt : RtpPacket}
    (h : ¬resetTriggered t pkt) :
    (adjust t pkt).pkt =
      { pkt with sequenceNumber := (pkt.sequenceNumber + t.snOffset) % 65536 } := by
  unfold adjust
  simp only [if_neg h]
  split <;> rfl

theorem adjust_preserves_anchor (t : TrackSynchronizer) (pkt : RtpPacket) :
    (adjust t pkt).t.rtpDuration = t.rtpDuration ∧
    (adjust t pkt).t.ptsOffset = t.ptsOffset ∧
    (adjust t pkt).t.maxPTS = t.maxPTS ∧
    (adjust t pkt).t.lastTS = t.lastTS ∧
    (adjust t pkt).t.lastPTS = t.lastPTS ∧
    (adjust t pkt).t.lastSN = t.lastSN ∧
    (adjust t pkt).t.lastValid = t.lastValid ∧
    (adjust t pkt).t.inserted = t.inserted := by
  by_cases h : resetTriggered t pkt
  · unfold adjust
    simp only [if_pos h]
    and_intros <;> trivial
  · rw [adjust_t_of_not_reset h]
    and_intros <;> trivial

theorem adjust_ts_of_reset {t : TrackSynchronizer} {pkt : RtpPacket}
    (h : resetTriggered t pkt) :
    (adjust t pkt).ts = t.lastTS + (t.inserted + 1) * getFrameDurationRTP t := by
  unfold adjust
  simp only [if_pos h]

theorem adjust_valid_of_reset {t : TrackSynchronizer} {pkt : RtpPacket}
    (h : resetTriggered t pkt) : (adjust t pkt).valid = false := by
  unfold adjust
  simp only [if_pos h]

theorem adjust_pkt_of_reset {t : TrackSynchronizer} {pkt : RtpPacket}
    (h : resetTriggered t pkt) :
    (adjust t pkt).pkt = { pkt with sequenceNumber := (t.lastSN + 1) % 65536 } := by
  unfold adjust
  simp only [if_pos h]

theorem adjust_pts_of_reset {t : TrackSynchronizer} {pkt : RtpPacket}
    (h : resetTriggered t pkt) :
    (adjust t pkt).pts = t.lastPTS +
      goRound ((((t.inserted + 1) * getFrameDurationRTP t : Int) : ℚ) * t.rtpDuration) := by
  unfold adjust
  simp only [if_pos h]

theorem adjust_t_of_reset {t : TrackSynchronizer} {pkt : RtpPacket}
    (h : resetTriggered t pkt) :
    (adjust t pkt).t = { t with
      snOffset := (t.snOffset +
        (t.lastSN + 1 + 65536 - (pkt.sequenceNumber + t.snOffset) % 65536) % 65536) % 65536
      firstTS := t.firstTS + ((pkt.timestamp : Int) -
        (t.lastTS + (t.inserted + 1) * getFrameDurationRTP t)) } := by
  unfold adjust
  simp only [if_pos h]

theorem adjust_valid_of_not_reset {t : TrackSynchronizer} {pkt : RtpPacket}
    (h : ¬resetTriggered t pkt) :
    (adjust t pkt).valid = if (adjust t pkt).ts = t.lastTS then t.lastValid else true := by
  rw [adjust_ts_of_not_reset h]
  unfold adjust
  simp only [if_neg h]
  split
  · next hcond => simp [if_pos hcond]
  · next hcond => simp [if_neg hcond]

theorem getFrameDurationRTP_nonneg {t : TrackSynchronizer}
    (hf : 0 ≤ t.frameDuration) (hd : 0 ≤ t.defaultFrameDuration) :
    0 ≤ getFrameDurationRTP t := by
  unfold getFrameDurationRTP
  split <;> assumption

theorem getPTS_pkt_eq_adjust_pkt (t : TrackSynchronizer) (pkt : RtpPacket) :
    (GetPTS t pkt).pkt = (adjust t pkt).pkt := by
  unfold GetPTS
  dsimp only
  split <;> split <;> rfl

theorem getPTS_cases (t : TrackSynchronizer) (pkt : RtpPacket) :
    ((0 < t.maxPTS ∧ (t.maxPTS < (adjust t pkt).pts ∨ (adjust t pkt).valid = false)) →
      (GetPTS t pkt).result = none ∧
      (GetPTS t pkt).t.lastSN = t.lastSN ∧
      (GetPTS t pkt).t.lastTS = t.lastTS ∧
      (GetPTS t pkt).t.lastPTS = t.lastPTS ∧
      (GetPTS t pkt).t.lastValid = t.lastValid) ∧
    (¬(0 < t.maxPTS ∧ (t.maxPTS < (adjust t pkt).pts ∨ (adjust t pkt).valid = false)) →
      (GetPTS t pkt).result = some (adjust t pkt).pts ∧
      (GetPTS t pkt).t.lastSN = (adjust t pkt).pkt.sequenceNumber ∧
      (GetPTS t pkt).t.lastTS = (adjust t pkt).ts ∧
      (GetPTS t pkt).t.lastPTS = (adjust t pkt).pts ∧
      (GetPTS t pkt).t.lastValid = (adjust t pkt).valid) := by
  obtain ⟨h1, h2, h3, h4, h5, h6, h7, h8⟩ := adjust_preserves_anchor t pkt
  unfold GetPTS
  dsimp only
  have hmax :
      (if (adjust t pkt).valid = true ∧ (adjust t pkt).t.lastValid = true ∧
          (adjust t pkt).pkt.sequenceNumber = ((adjust t pkt).t.lastSN + 1) % 65536 then
        { (adjust t pkt).t with
          inserted := 0
          frameDuration := (adjust t pkt).ts - (adjust t pkt).t.lastTS }
      else { (adjust t pkt).t with inserted := 0 }).maxPTS = t.maxPTS := by
    split <;> exact h3
  simp only [hmax]
  constructor
  · intro hE
    rw [if_pos hE]
    refine ⟨rfl, ?_, ?_, ?_, ?_⟩ <;> (split <;> dsimp only) <;>
      first | exact h6 | exact h4 | exact h5 | exact h7
  · intro hE
    rw [if_neg hE]
    exact ⟨rfl, rfl, rfl, rfl, rfl⟩

theorem adjust_eq_of_not_reset {t : TrackSynchronizer} {pkt : RtpPacket}
    (h : ¬resetTriggered t pkt)
    (hne : unwrapTS t.lastTS (pkt.timestamp : Int) ≠ t.lastTS) :
    adjust t pkt =
      { t := t
        pkt := { pkt with sequenceNumber := (pkt.sequenceNumber + t.snOffset) % 65536 }
        ts := unwrapTS t.lastTS (pkt.timestamp : Int)
        pts := getElapsed t (unwrapTS t.lastTS (pkt.timestamp : Int)) + t.ptsOffset
        valid := true } := by
  unfold adjust
  simp only [if_neg h, if_neg hne]

theorem adjust_eq_of_dup {t : TrackSynchronizer} {pkt : RtpPacket}
    (h : ¬resetTriggered t pkt)
    (heq : unwrapTS t.lastTS (pkt.timestamp : Int) = t.lastTS) :
    adjust t pkt =
      { t := t
        pkt := { pkt with sequenceNumber := (pkt.sequenceNumber + t.snOffset) % 65536 }
        ts := t.lastTS
        pts := t.lastPTS
        valid := t.lastValid } := by
  unfold adjust
  simp only [if_neg h, heq, if_true, eq_self_iff_true]

/-! ### Claim theorems -/

/-- C2: every branch of `adjust` (reset, wraparound-unwrap, duplicate)
returns an adjusted 64-bit timestamp `ts` that is at least the stored
`lastTS`, given the (reachable-state) sign facts that the learned and
default frame durations and the inserted counter are nonnegative. -/
theorem claim_C2_adjust_ts_monotone (t : TrackSynchronizer) (pkt : RtpPacket)
    (hf : 0 ≤ t.frameDuration) (hd : 0 ≤ t.defaultFrameDuration)
    (hi : 0 ≤ t.inserted) : t.lastTS ≤ (adjust t pkt).ts := by
  by_cases h : resetTriggered t pkt
  · rw [adjust_ts_of_reset h]
    have h1 : 0 ≤ getFrameDurationRTP t := getFrameDurationRTP_nonneg hf hd
    have h2 : 0 ≤ (t.inserted + 1) * getFrameDurationRTP t :=
      mul_nonneg (by linarith) h1
    linarith
  · rw [adjust_ts_of_not_reset h]
    exact le_unwrapTS _ _

/-- Witness for C2 at a concrete reset-branch input. -/
theorem claim_C2_witness :
    (0 ≤ tW2.frameDuration ∧ 0 ≤ tW2.defaultFrameDuration ∧ 0 ≤ tW2.inserted) ∧
    tW2.lastTS ≤ (adjust tW2 pW2).ts :=
  ⟨by decide,
   claim_C2_adjust_ts_monotone tW2 pW2 (by decide) (by decide) (by decide)⟩

/-- C3: whenever the gap-detection condition fires (corrected sequence
number more than 3000 from `lastSN` in both wraparound directions and a
previous timestamp exists), `adjust` rewrites the packet's sequence number
to exactly `lastSN + 1`, returns `valid = false`, and absorbs the gap into
`snOffset`: the same raw sequence number now offset-corrects to
`lastSN + 1`. -/
theorem claim_C3_gap_repair (t : TrackSynchronizer) (pkt : RtpPacket)
    (h : resetTriggered t pkt) :
    (adjust t pkt).pkt.sequenceNumber = (t.lastSN + 1) % 65536 ∧
    (adjust t pkt).valid = false ∧
    (pkt.sequenceNumber + (adjust t pkt).t.snOffset) % 65536 =
      (t.lastSN + 1) % 65536 := by
  refine ⟨?_, adjust_valid_of_reset h, ?_⟩
  · rw [adjust_pkt_of_reset h]
  · rw [adjust_t_of_reset h]
    dsimp only
    omega

/-- Witness for C3 at the spec's concrete numbers: `lastSN = 100`,
`snOffset = 0`, raw sequence number 5000; the corrected sequence number is
101 and the validity flag is false. -/
theorem claim_C3_witness :
    resetTriggered tW3 pW3 ∧
    (adjust tW3 pW3).pkt.sequenceNumber = 101 ∧
    (adjust tW3 pW3).valid = false ∧
    (pW3.sequenceNumber + (adjust tW3 pW3).t.snOffset) % 65536 = 101 := by
  have h := claim_C3_gap_repair tW3 pW3 (by decide)
  refine ⟨by decide, ?_, h.2.1, ?_⟩
  · rw [h.1]; decide
  · rw [h.2.2]; decide

/-- C5 counterexample: `GetPTS` does mutate the caller's packet.  At a
state whose gap-detection fires, the packet's sequence number field is
rewritten in place (here from 5000 to 101), contradicting the claim that
only the insertion operations ever mutate the packet. -/
theorem claim_C5_counterexample :
    (GetPTS tW2 pW2).pkt.sequenceNumber ≠ pW2.sequenceNumber := by decide

/-- C5 (amended): `GetPTS` never changes the packet's timestamp field, but
it rewrites the sequence number in place to the offset-corrected value —
`(sequenceNumber + snOffset) mod 2^16` normally, or `lastSN + 1` when the
reset branch fires; it is left unchanged only when `snOffset = 0` and no
reset occurs. -/
theorem claim_C5_getPTS_packet_effect (t : TrackSynchronizer) (pkt : RtpPacket) :
    (GetPTS t pkt).pkt.timestamp = pkt.timestamp ∧
    ((GetPTS t pkt).pkt.sequenceNumber = (pkt.sequenceNumber + t.snOffset) % 65536 ∨
      (GetPTS t pkt).pkt.sequenceNumber = (t.lastSN + 1) % 65536) := by
  rw [getPTS_pkt_eq_adjust_pkt]
  by_cases h : resetTriggered t pkt
  · rw [adjust_pkt_of_reset h]
    exact ⟨rfl, Or.inr rfl⟩
  · rw [adjust_pkt_of_not_reset h]
    exact ⟨rfl, Or.inl rfl⟩

/-- C4: `GetPTS` returns the end-of-stream signal exactly when `maxPTS` is
positive and either the computed pts exceeds it or the packet was judged
invalid; on that return the last-packet snapshot (`lastSN`, `lastTS`,
`lastPTS`, `lastValid`) is unchanged; in every other case it returns the
computed pts and updates the snapshot from this packet. -/
theorem claim_C4_eof_exactly (t : TrackSynchronizer) (pkt : RtpPacket) :
    ((GetPTS t pkt).result =
      if 0 < t.maxPTS ∧ (t.maxPTS < (adjust t pkt).pts ∨ (adjust t pkt).valid = false)
      then none else some (adjust t pkt).pts) ∧
    ((GetPTS t pkt).t.lastSN =
      if 0 < t.maxPTS ∧ (t.maxPTS < (adjust t pkt).pts ∨ (adjust t pkt).valid = false)
      then t.lastSN else (adjust t pkt).pkt.sequenceNumber) ∧
    ((GetPTS t pkt).t.lastTS =
      if 0 < t.maxPTS ∧ (t.maxPTS < (adjust t pkt).pts ∨ (adjust t pkt).valid = false)
      then t.lastTS else (adjust t pkt).ts) ∧
    ((GetPTS t pkt).t.lastPTS =
      if 0 < t.maxPTS ∧ (t.maxPTS < (adjust t pkt).pts ∨ (adjust t pkt).valid = false)
      then t.lastPTS else (adjust t pkt).pts) ∧
    ((GetPTS t pkt).t.lastValid =
      if 0 < t.maxPTS ∧ (t.maxPTS < (adjust t pkt).pts ∨ (adjust t pkt).valid = false)
      then t.lastValid else (adjust t pkt).valid) := by
  by_cases hE : 0 < t.maxPTS ∧ (t.maxPTS < (adjust t pkt).pts ∨ (adjust t pkt).valid = false)
  · obtain ⟨ha, hb, hc, hd, he⟩ := (getPTS_cases t pkt).1 hE
    simp only [if_pos hE]
    exact ⟨ha, hb, hc, hd, he⟩
  · obtain ⟨ha, hb, hc, hd, he⟩ := (getPTS_cases t pkt).2 hE
    simp only [if_neg hE]
    exact ⟨ha, hb, hc, hd, he⟩

/-- C8: `onSenderReport` folds the full difference between the sender's
expected presentation time (`ntpSendTime - ntpStart`) and the locally
computed `pts` into `ptsOffset` — with no damping or clamping (when they
are equal the added difference is zero, i.e. the state is unchanged) — and
touches no other field; as a total function it never fails. -/
theorem claim_C8_sender_report_drift (t : TrackSynchronizer)
    (ntpSendTime ntpStart pts : Int) :
    (onSenderReport t ntpSendTime ntpStart pts).ptsOffset =
      t.ptsOffset + ((ntpSendTime - ntpStart) - pts) ∧
    (onSenderReport t ntpSendTime ntpStart pts).rtpDuration = t.rtpDuration ∧
    (onSenderReport t ntpSendTime ntpStart pts).frameDuration = t.frameDuration ∧
    (onSenderReport t ntpSendTime ntpStart pts).defaultFrameDuration =
      t.defaultFrameDuration ∧
    (onSenderReport t ntpSendTime ntpStart pts).startedAt = t.startedAt ∧
    (onSenderReport t ntpSendTime ntpStart pts).firstTS = t.firstTS ∧
    (onSenderReport t ntpSendTime ntpStart pts).maxPTS = t.maxPTS ∧
    (onSenderReport t ntpSendTime ntpStart pts).lastSN = t.lastSN ∧
    (onSenderReport t ntpSendTime ntpStart pts).lastTS = t.lastTS ∧
    (onSenderReport t ntpSendTime ntpStart pts).lastPTS = t.lastPTS ∧
    (onSenderReport t ntpSendTime ntpStart pts).lastValid = t.lastValid ∧
    (onSenderReport t ntpSendTime ntpStart pts).inserted = t.inserted ∧
    (onSenderReport t ntpSendTime ntpStart pts).snOffset = t.snOffset ∧
    (onSenderReport t ntpSendTime ntpStart pts).lastPTSDrift = t.lastPTSDrift := by
  unfold onSenderReport
  dsimp only
  split
  · and_intros <;> trivial
  · next h =>
    have hpe : pts = ntpSendTime - ntpStart := by
      by_contra hne
      exact h hne
    and_intros <;> first
      | trivial
      | (rw [hpe]; ring_nf)

/-- C10: with a non-nil next packet, the overlap check of
`insertFrameBefore` runs `adjust` on `next` against the already-bumped
state: `next`'s sequence number is rewritten in place (adding the current
`snOffset`, i.e. the incremented one; or set to `lastSN + 1` if `next`
triggers the reset branch), and a reset also mutates `snOffset` and
`firstTS` by the reset formulas — and the state and `next` returned by
`insertFrameBefore` carry these mutations whether or not the insertion was
refused. -/
theorem claim_C10_overlap_check_mutates (t : TrackSynchronizer)
    (pkt nxt : RtpPacket) :
    (insertFrameBefore t pkt (some nxt)).next = some (adjust (insertBumped t) nxt).pkt ∧
    (insertFrameBefore t pkt (some nxt)).t = (adjust (insertBumped t) nxt).t ∧
    ((adjust (insertBumped t) nxt).pkt.sequenceNumber =
      if resetTriggered (insertBumped t) nxt then (t.lastSN + 1) % 65536
      else (nxt.sequenceNumber + (t.snOffset + 1) % 65536) % 65536) ∧
    ((adjust (insertBumped t) nxt).t.snOffset =
      if resetTriggered (insertBumped t) nxt then
        ((t.snOffset + 1) % 65536 +
          (t.lastSN + 1 + 65536 -
            (nxt.sequenceNumber + (t.snOffset + 1) % 65536) % 65536) % 65536) % 65536
      else (t.snOffset + 1) % 65536) ∧
    ((adjust (insertBumped t) nxt).t.firstTS =
      if resetTriggered (insertBumped t) nxt then
        t.firstTS + ((nxt.timestamp : Int) -
          (t.lastTS + (t.inserted + 1 + 1) * getFrameDurationRTP (insertBumped t)))
      else t.firstTS) := by
  refine ⟨?_, ?_, ?_, ?_, ?_⟩
  · unfold insertFrameBefore insertAccept
    dsimp only
    split <;> rfl
  · unfold insertFrameBefore insertAccept
    dsimp only
    split <;> rfl
  · by_cases hr : resetTriggered (insertBumped t) nxt
    · rw [adjust_pkt_of_reset hr, if_pos hr]
    · rw [adjust_pkt_of_not_reset hr, if_neg hr]
  · by_cases hr : resetTriggered (insertBumped t) nxt
    · rw [adjust_t_of_reset hr, if_pos hr]
    · rw [adjust_t_of_not_reset hr, if_neg hr]
  · by_cases hr : resetTriggered (insertBumped t) nxt
    · rw [adjust_t_of_reset hr, if_pos hr]
    · rw [adjust_t_of_not_reset hr, if_neg hr]

/-- C9: when `insertFrameBefore` refuses an insertion, the side effects
applied before the overlap check are not rolled back: the inserted counter
and `snOffset` remain incremented by exactly one, `lastValid` remains
false, and the caller's synthetic packet is not overwritten.  (The
increment is exactly one because a refusal can only happen when `adjust`
on `next` did not take the reset branch: in the reset branch the projected
timestamp equals the synthetic frame's end exactly, so the overlap check
never fires.) -/
theorem claim_C9_refusal_keeps_side_effects (t : TrackSynchronizer)
    (pkt nxt : RtpPacket)
    (h : (insertFrameBefore t pkt (some nxt)).ok = false) :
    (insertFrameBefore t pkt (some nxt)).t.inserted = t.inserted + 1 ∧
    (insertFrameBefore t pkt (some nxt)).t.snOffset = (t.snOffset + 1) % 65536 ∧
    (insertFrameBefore t pkt (some nxt)).t.lastValid = false ∧
    (insertFrameBefore t pkt (some nxt)).pkt = pkt := by
  by_cases hr : resetTriggered (insertBumped t) nxt
  · exfalso
    have hnolt : ¬((adjust (insertBumped t) nxt).ts <
        t.lastTS + (t.inserted + 1) * getFrameDurationRTP (insertBumped t) +
          getFrameDurationRTP (insertBumped t)) := by
      rw [adjust_ts_of_reset hr]
      have hring : ((insertBumped t).inserted + 1) * getFrameDurationRTP (insertBumped t) =
          (t.inserted + 1) * getFrameDurationRTP (insertBumped t) +
            getFrameDurationRTP (insertBumped t) := by
        unfold insertBumped
        dsimp only
        ring
      rw [hring]
      have hlast : (insertBumped t).lastTS = t.lastTS := rfl
      rw [hlast]
      omega
    unfold insertFrameBefore at h
    dsimp only at h
    split at h
    · next hcond => exact hnolt hcond
    · simp [insertAccept] at h
  · have ht : (adjust (insertBumped t) nxt).t = insertBumped t :=
      adjust_t_of_not_reset hr
    have hteq : (insertFrameBefore t pkt (some nxt)).t = (adjust (insertBumped t) nxt).t := by
      unfold insertFrameBefore insertAccept
      dsimp only
      split <;> rfl
    have hpkt : (insertFrameBefore t pkt (some nxt)).pkt = pkt := by
      unfold insertFrameBefore at h ⊢
      dsimp only at h ⊢
      split at h
      · next hcond => rw [if_pos hcond]
      · simp [insertAccept] at h
    refine ⟨?_, ?_, ?_, hpkt⟩ <;> rw [hteq, ht]

/-- Witness for C9: a concrete refused insertion (next packet only 1000 RTP
units away, synthetic frame needs 1920) whose side effects persist. -/
theorem claim_C9_witness :
    (insertFrameBefore tW6 pW6 (some nW9)).ok = false ∧
    ((insertFrameBefore tW6 pW6 (some nW9)).t.inserted = tW6.inserted + 1 ∧
      (insertFrameBefore tW6 pW6 (some nW9)).t.snOffset = (tW6.snOffset + 1) % 65536 ∧
      (insertFrameBefore tW6 pW6 (some nW9)).t.lastValid = false ∧
      (insertFrameBefore tW6 pW6 (some nW9)).pkt = pW6) := by
  have hok : (insertFrameBefore tW6 pW6 (some nW9)).ok = false := by
    norm_num [insertFrameBefore, insertAccept, adjust, resetTriggered, getFrameDurationRTP,
      tW6, pW6, nW9, maxSNDropout, unwrapTS_of_ge]
  exact ⟨hok, claim_C9_refusal_keeps_side_effects tW6 pW6 nW9 hok⟩

/-- C6 counterexample: the claim says an insertion whose synthetic frame
ends exactly at the next packet's unwrap-adjusted timestamp ("at or after")
is refused, but the code's check is strict (`>`): at the boundary —
synthetic end 1000 + 960 + 960 = 2920 equal to `next`'s adjusted timestamp
2920 — the insertion succeeds. -/
theorem claim_C6_counterexample :
    (insertFrameBefore tW6 pW6 (some nW6boundary)).ok = true ∧
    (adjust (insertBumped tW6) nW6boundary).ts =
      tW6.lastTS + (tW6.inserted + 1) * getFrameDurationRTP (insertBumped tW6) +
        getFrameDurationRTP (insertBumped tW6) := by
  constructor
  · norm_num [insertFrameBefore, insertAccept, adjust, resetTriggered, getFrameDurationRTP,
      tW6, pW6, nW6boundary, maxSNDropout, unwrapTS_of_ge]
  · norm_num [adjust, resetTriggered, getFrameDurationRTP, insertBumped,
      tW6, nW6boundary, maxSNDropout, unwrapTS_of_ge]

/-- C7 (amended): when the current packet and the previous one are both
valid and the (corrected) sequence number is exactly the previous plus one,
`GetPTS` updates the learned `frameDuration` to the adjusted-timestamp
spacing `ts - lastTS`, and `GetFrameDuration` thereafter returns that
spacing converted to wall-clock time whenever it is nonzero; for a
duplicate-timestamp packet (spacing zero) the recorded 0 instead makes
`getFrameDurationRTP` fall back to the default, so `GetFrameDuration`
returns the default frame duration converted to wall-clock time. -/
theorem claim_C7_frame_duration_learning (t : TrackSynchronizer) (pkt : RtpPacket)
    (hv : (adjust t pkt).valid = true) (hl : t.lastValid = true)
    (hs : (adjust t pkt).pkt.sequenceNumber = (t.lastSN + 1) % 65536) :
    (GetPTS t pkt).t.frameDuration = (adjust t pkt).ts - t.lastTS ∧
    ((adjust t pkt).ts ≠ t.lastTS →
      GetFrameDuration (GetPTS t pkt).t =
        goRound ((((adjust t pkt).ts - t.lastTS : Int) : ℚ) * t.rtpDuration)) ∧
    ((adjust t pkt).ts = t.lastTS →
      GetFrameDuration (GetPTS t pkt).t =
        goRound ((t.defaultFrameDuration : ℚ) * t.rtpDuration)) := by
  obtain ⟨h1, h2, h3, h4, h5, h6, h7, h8⟩ := adjust_preserves_anchor t pkt
  have hcond : (adjust t pkt).valid = true ∧ (adjust t pkt).t.lastValid = true ∧
      (adjust t pkt).pkt.sequenceNumber = ((adjust t pkt).t.lastSN + 1) % 65536 := by
    rw [h7, h6]
    exact ⟨hv, hl, hs⟩
  have hfd : (GetPTS t pkt).t.frameDuration = (adjust t pkt).ts - t.lastTS := by
    unfold GetPTS
    dsimp only
    rw [if_pos hcond]
    split <;> dsimp only <;> rw [h4]
  have hrd : (GetPTS t pkt).t.rtpDuration = t.rtpDuration := by
    unfold GetPTS
    dsimp only
    split <;> split <;> dsimp only <;> exact h1
  have hdd : (GetPTS t pkt).t.defaultFrameDuration = t.defaultFrameDuration := by
    have hdd1 : (GetPTS t pkt).t.defaultFrameDuration =
        (adjust t pkt).t.defaultFrameDuration := by
      unfold GetPTS
      dsimp only
      split <;> split <;> dsimp only
    rw [hdd1]
    by_cases h : resetTriggered t pkt
    · rw [adjust_t_of_reset h]
    · rw [adjust_t_of_not_reset h]
  refine ⟨hfd, fun hne => ?_, fun heq => ?_⟩
  · unfold GetFrameDuration getFrameDurationRTP
    simp only [hfd, hrd, if_pos (sub_ne_zero.mpr hne)]
  · have hzero : (adjust t pkt).ts - t.lastTS = 0 := by omega
    unfold GetFrameDuration getFrameDurationRTP
    simp [hfd, hzero, hrd, hdd]

/-- C7 counterexample: a duplicate-timestamp packet with the next sequence
number (e.g. the second packet of one video frame) satisfies the claim's
conditions — current and previous packets both valid, corrected sequence
number equal to the previous plus one — and `frameDuration` is indeed
updated to `ts - lastTS` (here 0), but `GetFrameDuration` then returns the
default-based 20 ms (20000000 ns) rather than that spacing converted to
wall-clock time (0 ns), contradicting the claim's "GetFrameDuration
thereafter returns that duration". -/
theorem claim_C7_counterexample :
    (adjust tX7 pX7).valid = true ∧ tX7.lastValid = true ∧
    (adjust tX7 pX7).pkt.sequenceNumber = (tX7.lastSN + 1) % 65536 ∧
    (GetPTS tX7 pX7).t.frameDuration = (adjust tX7 pX7).ts - tX7.lastTS ∧
    goRound ((((adjust tX7 pX7).ts - tX7.lastTS : Int) : ℚ) * tX7.rtpDuration) = 0 ∧
    GetFrameDuration (GetPTS tX7 pX7).t = 20000000 ∧
    GetFrameDuration (GetPTS tX7 pX7).t ≠
      goRound ((((adjust tX7 pX7).ts - tX7.lastTS : Int) : ℚ) * tX7.rtpDuration) := by
  have hu : unwrapTS tX7.lastTS ((pX7.timestamp : Nat) : Int) = ((pX7.timestamp : Nat) : Int) :=
    unwrapTS_of_ge (by decide)
  have hadj := @adjust_eq_of_dup tX7 pX7 (by decide) (by rw [hu]; decide)
  have hv : (adjust tX7 pX7).valid = true := by
    rw [hadj]
    decide
  have hs : (adjust tX7 pX7).pkt.sequenceNumber = (tX7.lastSN + 1) % 65536 := by
    rw [hadj]
    decide
  have heq : (adjust tX7 pX7).ts = tX7.lastTS := by
    rw [hadj]
  have hts0 : (adjust tX7 pX7).ts - tX7.lastTS = 0 := by
    rw [heq]
    decide
  have hmain := claim_C7_frame_duration_learning tX7 pX7 hv (by decide) hs
  have h5 : goRound ((((adjust tX7 pX7).ts - tX7.lastTS : Int) : ℚ) * tX7.rtpDuration) = 0 := by
    rw [hts0, show (((0 : Int) : ℚ) * tX7.rtpDuration) = ((0 : Int) : ℚ) by norm_num,
      goRound_intCast]
  have h6 : GetFrameDuration (GetPTS tX7 pX7).t = 20000000 := by
    rw [hmain.2.2 heq,
      show ((tX7.defaultFrameDuration : ℚ) * tX7.rtpDuration) = ((20000000 : Int) : ℚ) by
        norm_num [tX7],
      goRound_intCast]
  refine ⟨hv, by decide, hs, hmain.1, h5, h6, ?_⟩
  rw [h5, h6]
  decide

/-- Witness for C7 at the spec's numbers: clock rate 48000, two
sequentially-numbered valid packets 960 RTP units apart; the learned frame
duration is 960 and `GetFrameDuration` returns 20 ms (20000000 ns). -/
theorem claim_C7_witness :
    ((adjust tW7 pW7).valid = true ∧ tW7.lastValid = true ∧
      (adjust tW7 pW7).pkt.sequenceNumber = (tW7.lastSN + 1) % 65536 ∧
      (adjust tW7 pW7).ts ≠ tW7.lastTS) ∧
    (GetPTS tW7 pW7).t.frameDuration = 960 ∧
    GetFrameDuration (GetPTS tW7 pW7).t = 20000000 := by
  have hu : unwrapTS tW7.lastTS ((pW7.timestamp : Nat) : Int) = ((pW7.timestamp : Nat) : Int) :=
    unwrapTS_of_ge (by decide)
  have hadj := @adjust_eq_of_not_reset tW7 pW7 (by decide)
    (by rw [hu]; decide)
  have hv : (adjust tW7 pW7).valid = true := by rw [hadj]
  have hs : (adjust tW7 pW7).pkt.sequenceNumber = (tW7.lastSN + 1) % 65536 := by
    rw [hadj]
    decide
  have hne : (adjust tW7 pW7).ts ≠ tW7.lastTS := by
    rw [hadj]
    dsimp only
    rw [hu]
    decide
  have hts : (adjust tW7 pW7).ts - tW7.lastTS = 960 := by
    rw [hadj]
    dsimp only
    rw [hu]
    decide
  have hmain := claim_C7_frame_duration_learning tW7 pW7 hv (by decide) hs
  refine ⟨⟨hv, by decide, hs, hne⟩, ?_, ?_⟩
  · rw [hmain.1, hts]
  · rw [hmain.2.1 hne, hts]
    rw [show (((960 : Int) : ℚ) * tW7.rtpDuration) = ((20000000 : Int) : ℚ) by
      norm_num [tW7]]
    exact goRound_intCast _

/-- C6 (amended): with a non-nil next packet, insertion is refused exactly
when the synthetic frame's end (its synthetic timestamp plus one frame
duration) would land *strictly after* the next packet's unwrap-adjusted
timestamp — an end exactly at that timestamp is accepted; on refusal no PTS
is produced and the packet is untouched; on success the packet's sequence
number and timestamp are overwritten and — provided the frame duration is
at least one RTP unit and worth at least 2 ns, the next packet does not
trigger a reset, the inserted counter is nonnegative, and the track
satisfies the PTS invariant — the returned PTS lies strictly between the
previous frame's PTS and the next packet's PTS. -/
theorem claim_C6_insert_before_refusal (t : TrackSynchronizer) (pkt nxt : RtpPacket)
    (hInv : PTSInv t) (hrtp : 0 < t.rtpDuration)
    (hfd1 : 1 ≤ getFrameDurationRTP (insertBumped t))
    (hfd2 : 2 ≤ (getFrameDurationRTP (insertBumped t) : ℚ) * t.rtpDuration)
    (hins : 0 ≤ t.inserted)
    (hnr : ¬resetTriggered (insertBumped t) nxt) :
    ((insertFrameBefore t pkt (some nxt)).ok = false ↔
      (adjust (insertBumped t) nxt).ts <
        t.lastTS + (t.inserted + 1) * getFrameDurationRTP (insertBumped t) +
          getFrameDurationRTP (insertBumped t)) ∧
    ((insertFrameBefore t pkt (some nxt)).ok = false →
      (insertFrameBefore t pkt (some nxt)).pts = 0 ∧
      (insertFrameBefore t pkt (some nxt)).pkt = pkt) ∧
    ((insertFrameBefore t pkt (some nxt)).ok = true →
      (insertFrameBefore t pkt (some nxt)).pkt.sequenceNumber =
        (t.lastSN + ((t.inserted + 1) % 65536).toNat) % 65536 ∧
      (insertFrameBefore t pkt (some nxt)).pkt.timestamp =
        ((t.lastTS + (t.inserted + 1) * getFrameDurationRTP (insertBumped t)) %
          uint32Overflow).toNat ∧
      t.lastPTS < (insertFrameBefore t pkt (some nxt)).pts ∧
      (insertFrameBefore t pkt (some nxt)).pts < (adjust (insertBumped t) nxt).pts) := by
  have hT : (adjust (insertBumped t) nxt).t = insertBumped t := adjust_t_of_not_reset hnr
  by_cases hlt : (adjust (insertBumped t) nxt).ts <
      t.lastTS + (t.inserted + 1) * getFrameDurationRTP (insertBumped t) +
        getFrameDurationRTP (insertBumped t)
  · -- refusal
    have hok : (insertFrameBefore t pkt (some nxt)).ok = false := by
      unfold insertFrameBefore
      dsimp only
      rw [if_pos hlt]
    have hpp : (insertFrameBefore t pkt (some nxt)).pts = 0 ∧
        (insertFrameBefore t pkt (some nxt)).pkt = pkt := by
      unfold insertFrameBefore
      dsimp only
      rw [if_pos hlt]
      exact ⟨rfl, rfl⟩
    refine ⟨⟨fun _ => hlt, fun _ => hok⟩, fun _ => hpp, fun hok2 => ?_⟩
    rw [hok] at hok2
    exact absurd hok2 (by decide)
  · -- success
    have hok : (insertFrameBefore t pkt (some nxt)).ok = true := by
      unfold insertFrameBefore insertAccept
      dsimp only
      rw [if_neg hlt]
    have hgeInt : t.lastTS + (t.inserted + 1) * getFrameDurationRTP (insertBumped t) +
        getFrameDurationRTP (insertBumped t) ≤ (adjust (insertBumped t) nxt).ts :=
      not_lt.mp hlt
    have hd1 : (1 : Int) ≤ getFrameDurationRTP (insertBumped t) := hfd1
    have hprod : 0 ≤ t.inserted * getFrameDurationRTP (insertBumped t) :=
      mul_nonneg hins (by linarith)
    have hts2 : t.lastTS + 2 ≤ (adjust (insertBumped t) nxt).ts := by
      nlinarith [hgeInt, hprod, hd1]
    have hneq : (adjust (insertBumped t) nxt).ts ≠ (insertBumped t).lastTS := by
      intro hE
      rw [show (insertBumped t).lastTS = t.lastTS from rfl] at hE
      rw [hE] at hts2
      linarith
    have hpts_r : (adjust (insertBumped t) nxt).pts =
        goRound ((((adjust (insertBumped t) nxt).ts - t.firstTS : Int) : ℚ) *
          t.rtpDuration) + t.ptsOffset := by
      rw [adjust_pts_of_not_reset hnr, if_neg hneq]
      rfl
    have hpts_res : (insertFrameBefore t pkt (some nxt)).pts =
        t.lastPTS + goRound ((getFrameDurationRTP (insertBumped t) : ℚ) * t.rtpDuration *
          ((t.inserted + 1 : Int) : ℚ)) := by
      unfold insertFrameBefore insertAccept
      dsimp only
      rw [if_neg hlt, hT]
    have hsn : (insertFrameBefore t pkt (some nxt)).pkt.sequenceNumber =
        (t.lastSN + ((t.inserted + 1) % 65536).toNat) % 65536 := by
      unfold insertFrameBefore insertAccept
      dsimp only
      rw [if_neg hlt, hT]
    have htspkt : (insertFrameBefore t pkt (some nxt)).pkt.timestamp =
        ((t.lastTS + (t.inserted + 1) * getFrameDurationRTP (insertBumped t)) %
          uint32Overflow).toNat := by
      unfold insertFrameBefore insertAccept
      dsimp only
      rw [if_neg hlt, hT]
    -- numeric bounds
    have hInvQ : ((t.lastPTS : Int) : ℚ) ≤
        (goRound (((t.lastTS - t.firstTS : Int) : ℚ) * t.rtpDuration) : ℚ) +
          ((t.ptsOffset : Int) : ℚ) := by
      exact_mod_cast (hInv : t.lastPTS ≤
        goRound (((t.lastTS - t.firstTS : Int) : ℚ) * t.rtpDuration) + t.ptsOffset)
    have hins1 : (1 : ℚ) ≤ ((t.inserted + 1 : Int) : ℚ) := by
      exact_mod_cast (by omega : (1 : Int) ≤ t.inserted + 1)
    have hX2 : (2 : ℚ) ≤ (getFrameDurationRTP (insertBumped t) : ℚ) * t.rtpDuration *
        ((t.inserted + 1 : Int) : ℚ) := by
      nlinarith [hfd2, hins1]
    have hlow : 0 < goRound ((getFrameDurationRTP (insertBumped t) : ℚ) * t.rtpDuration *
        ((t.inserted + 1 : Int) : ℚ)) := by
      have hb := goRound_ge ((getFrameDurationRTP (insertBumped t) : ℚ) * t.rtpDuration *
        ((t.inserted + 1 : Int) : ℚ))
      have h0 : (0 : ℚ) < (goRound ((getFrameDurationRTP (insertBumped t) : ℚ) *
          t.rtpDuration * ((t.inserted + 1 : Int) : ℚ)) : ℚ) := by linarith
      exact_mod_cast h0
    have hint : (t.lastTS - t.firstTS) +
        ((t.inserted + 1) * getFrameDurationRTP (insertBumped t) +
          getFrameDurationRTP (insertBumped t)) ≤
        (adjust (insertBumped t) nxt).ts - t.firstTS := by linarith
    have hmul := mul_le_mul_of_nonneg_right
      (show (((t.lastTS - t.firstTS) +
          ((t.inserted + 1) * getFrameDurationRTP (insertBumped t) +
            getFrameDurationRTP (insertBumped t)) : Int) : ℚ) ≤
          (((adjust (insertBumped t) nxt).ts - t.firstTS : Int) : ℚ) by
        exact_mod_cast hint)
      (le_of_lt hrtp)
    have hup : t.lastPTS + goRound ((getFrameDurationRTP (insertBumped t) : ℚ) *
        t.rtpDuration * ((t.inserted + 1 : Int) : ℚ)) <
        goRound ((((adjust (insertBumped t) nxt).ts - t.firstTS : Int) : ℚ) *
          t.rtpDuration) + t.ptsOffset := by
      have hA := goRound_le (((t.lastTS - t.firstTS : Int) : ℚ) * t.rtpDuration)
      have hX := goRound_le ((getFrameDurationRTP (insertBumped t) : ℚ) * t.rtpDuration *
        ((t.inserted + 1 : Int) : ℚ))
      have hB := goRound_ge ((((adjust (insertBumped t) nxt).ts - t.firstTS : Int) : ℚ) *
        t.rtpDuration)
      have hq : ((t.lastPTS + goRound ((getFrameDurationRTP (insertBumped t) : ℚ) *
          t.rtpDuration * ((t.inserted + 1 : Int) : ℚ)) : Int) : ℚ) <
          ((goRound ((((adjust (insertBumped t) nxt).ts - t.firstTS : Int) : ℚ) *
            t.rtpDuration) + t.ptsOffset : Int) : ℚ) := by
        push_cast
        push_cast at hInvQ hmul hA hX hB hfd2
        nlinarith [hInvQ, hmul, hA, hX, hB, hfd2]
      exact_mod_cast hq
    refine ⟨⟨fun hf => ?_, fun hc => absurd hc hlt⟩, fun hf => ?_, fun _ => ?_⟩
    · rw [hok] at hf
      exact absurd hf (by decide)
    · rw [hok] at hf
      exact absurd hf (by decide)
    · refine ⟨hsn, htspkt, ?_, ?_⟩
      · rw [hpts_res]
        linarith [hlow]
      · rw [hpts_res, hpts_r]
        exact hup

/-- Witness for C6: at frame duration 960 (960 ns) with the next packet
1960 RTP units past the synthetic frame's start, insertion succeeds and
the returned PTS (960) lies strictly between the previous frame's PTS (0)
and the next packet's PTS (3000). -/
theorem claim_C6_witness :
    (PTSInv tW6 ∧ 0 < tW6.rtpDuration ∧
      1 ≤ getFrameDurationRTP (insertBumped tW6) ∧
      2 ≤ (getFrameDurationRTP (insertBumped tW6) : ℚ) * tW6.rtpDuration ∧
      0 ≤ tW6.inserted ∧ ¬resetTriggered (insertBumped tW6) nW6room) ∧
    (insertFrameBefore tW6 pW6 (some nW6room)).ok = true ∧
    tW6.lastPTS < (insertFrameBefore tW6 pW6 (some nW6room)).pts ∧
    (insertFrameBefore tW6 pW6 (some nW6room)).pts <
      (adjust (insertBumped tW6) nW6room).pts := by
  have hInv : PTSInv tW6 := by
    show (0 : Int) ≤ goRound ((((1000 : Int) - 1000 : Int) : ℚ) * 1) + 0
    rw [show ((((1000 : Int) - 1000 : Int) : ℚ) * 1) = ((0 : Int) : ℚ) by norm_num,
      goRound_intCast]
    norm_num
  have hrtp : (0 : ℚ) < tW6.rtpDuration := by norm_num [tW6]
  have hfd1 : (1 : Int) ≤ getFrameDurationRTP (insertBumped tW6) := by decide
  have hfd2 : (2 : ℚ) ≤ (getFrameDurationRTP (insertBumped tW6) : ℚ) * tW6.rtpDuration := by
    norm_num [getFrameDurationRTP, insertBumped, tW6]
  have hins : (0 : Int) ≤ tW6.inserted := by decide
  have hnr : ¬resetTriggered (insertBumped tW6) nW6room := by decide
  have hmain := claim_C6_insert_before_refusal tW6 pW6 nW6room hInv hrtp hfd1 hfd2 hins hnr
  have hok : (insertFrameBefore tW6 pW6 (some nW6room)).ok = true := by
    norm_num [insertFrameBefore, insertAccept, adjust, resetTriggered, getFrameDurationRTP,
      tW6, pW6, nW6room, maxSNDropout, unwrapTS_of_ge]
  obtain ⟨hsn, hts, hl, hu⟩ := hmain.2.2 hok
  exact ⟨⟨hInv, hrtp, hfd1, hfd2, hins, hnr⟩, hok, hl, hu⟩

theorem getPTS_preserves_anchor (t : TrackSynchronizer) (pkt : RtpPacket) :
    (GetPTS t pkt).t.rtpDuration = (adjust t pkt).t.rtpDuration ∧
    (GetPTS t pkt).t.firstTS = (adjust t pkt).t.firstTS ∧
    (GetPTS t pkt).t.ptsOffset = (adjust t pkt).t.ptsOffset ∧
    (GetPTS t pkt).t.maxPTS = (adjust t pkt).t.maxPTS := by
  unfold GetPTS
  dsimp only
  split <;> split <;> dsimp only <;> exact ⟨rfl, rfl, rfl, rfl⟩

theorem getPTS_step_no_reset (t : TrackSynchronizer) (pkt : RtpPacket)
    (hInv : PTSInv t) (hrtp : 0 ≤ t.rtpDuration) (hnr : ¬resetTriggered t pkt) :
    (∀ pts : Int, (GetPTS t pkt).result = some pts → t.lastPTS ≤ pts) ∧
    PTSInv (GetPTS t pkt).t := by
  have hteq : (adjust t pkt).t = t := adjust_t_of_not_reset hnr
  have hts : t.lastTS ≤ (adjust t pkt).ts := by
    rw [adjust_ts_of_not_reset hnr]
    exact le_unwrapTS _ _
  have hmono : ptsAt t t.lastTS ≤ ptsAt t (adjust t pkt).ts := by
    unfold ptsAt getElapsed
    have hc : (((t.lastTS - t.firstTS : Int)) : ℚ) * t.rtpDuration ≤
        ((((adjust t pkt).ts - t.firstTS : Int)) : ℚ) * t.rtpDuration := by
      refine mul_le_mul_of_nonneg_right ?_ hrtp
      exact_mod_cast (by linarith : t.lastTS - t.firstTS ≤ (adjust t pkt).ts - t.firstTS)
    have := goRound_mono hc
    omega
  have hple : t.lastPTS ≤ (adjust t pkt).pts := by
    rw [adjust_pts_of_not_reset hnr]
    split
    · exact le_refl _
    · calc t.lastPTS ≤ ptsAt t t.lastTS := hInv
        _ ≤ ptsAt t (adjust t pkt).ts := hmono
  have hInv2 : PTSInv (GetPTS t pkt).t := by
    obtain ⟨ha1, ha2, ha3, _⟩ := getPTS_preserves_anchor t pkt
    rw [hteq] at ha1 ha2 ha3
    by_cases hE : 0 < t.maxPTS ∧ (t.maxPTS < (adjust t pkt).pts ∨ (adjust t pkt).valid = false)
    · obtain ⟨_, _, hb3, hb4, _⟩ := (getPTS_cases t pkt).1 hE
      unfold PTSInv ptsAt getElapsed
      unfold PTSInv ptsAt getElapsed at hInv
      rw [ha1, ha2, ha3, hb3, hb4]
      exact hInv
    · obtain ⟨_, _, hb3, hb4, _⟩ := (getPTS_cases t pkt).2 hE
      unfold PTSInv ptsAt getElapsed
      rw [ha1, ha2, ha3, hb3, hb4]
      rw [adjust_pts_of_not_reset hnr]
      split
      · next hdup =>
        rw [hdup]
        unfold PTSInv ptsAt getElapsed at hInv
        exact hInv
      · unfold ptsAt getElapsed
        exact le_refl _
  refine ⟨fun pts hres => ?_, hInv2⟩
  by_cases hE : 0 < t.maxPTS ∧ (t.maxPTS < (adjust t pkt).pts ∨ (adjust t pkt).valid = false)
  · rw [((getPTS_cases t pkt).1 hE).1] at hres
    exact absurd hres (by simp)
  · rw [((getPTS_cases t pkt).2 hE).1] at hres
    rw [← Option.some_inj.mp hres]
    exact hple

/-- C1 (amended): along any sequence of `GetPTS` calls in packet order in
which no call triggers the reset-repair branch, the successful PTS values
are monotonically non-decreasing (starting from any state satisfying the
PTS invariant, which `Initialize` on the first packet and every normal
packet re-establish).  The unrestricted claim is false: after a
reset-repair, `firstTS` is re-anchored to the reset packet's raw timestamp
domain, and a following packet whose raw timestamp is inconsistent with
that anchor (yet above `lastTS`, so neither wrap correction nor another
reset fires) yields a smaller PTS — see the counterexample. -/
theorem claim_C1_pts_monotone_no_reset (t : TrackSynchronizer) (ps : List RtpPacket)
    (hInv : PTSInv t) (hrtp : 0 ≤ t.rtpDuration) (hnr : NoResetRun t ps) :
    List.Chain (· ≤ ·) t.lastPTS ((runGetPTS t ps).2.filterMap id) := by
  induction ps generalizing t with
  | nil => exact List.Chain.nil
  | cons p ps ih =>
    obtain ⟨hnr1, hnrs⟩ := hnr
    have hstep := getPTS_step_no_reset t p hInv hrtp hnr1
    have hanchor := getPTS_preserves_anchor t p
    have hteq : (adjust t p).t = t := adjust_t_of_not_reset hnr1
    have hrtp2 : 0 ≤ (GetPTS t p).t.rtpDuration := by
      rw [hanchor.1, hteq]
      exact hrtp
    have hrest := ih (GetPTS t p).t hstep.2 hrtp2 hnrs
    show List.Chain (· ≤ ·) t.lastPTS
      (((GetPTS t p).result :: (runGetPTS (GetPTS t p).t ps).2).filterMap id)
    cases hres : (GetPTS t p).result with
    | none =>
      have hE : 0 < t.maxPTS ∧ (t.maxPTS < (adjust t p).pts ∨ (adjust t p).valid = false) := by
        by_contra hE
        rw [((getPTS_cases t p).2 hE).1] at hres
        exact absurd hres (by simp)
      have hlast : (GetPTS t p).t.lastPTS = t.lastPTS := ((getPTS_cases t p).1 hE).2.2.2.1
      simp only [List.filterMap_cons, id]
      rw [hlast] at hrest
      exact hrest
    | some pts =>
      have h1 := hstep.1 pts hres
      have hE : ¬(0 < t.maxPTS ∧ (t.maxPTS < (adjust t p).pts ∨ (adjust t p).valid = false)) := by
        intro hE
        rw [((getPTS_cases t p).1 hE).1] at hres
        exact absurd hres (by simp)
      have hpts : pts = (adjust t p).pts := by
        have h2 := ((getPTS_cases t p).2 hE).1
        rw [hres] at h2
        exact Option.some_inj.mp h2
      have hlast : (GetPTS t p).t.lastPTS = pts := by
        rw [((getPTS_cases t p).2 hE).2.2.2.1, ← hpts]
      simp only [List.filterMap_cons, id]
      rw [hlast] at hrest
      exact List.Chain.cons h1 hrest

/-- Witness for C1 (amended) at a concrete no-reset run of one packet. -/
theorem claim_C1_witness :
    (PTSInv tW1 ∧ 0 ≤ tW1.rtpDuration ∧ NoResetRun tW1 [pW1]) ∧
    List.Chain (· ≤ ·) tW1.lastPTS ((runGetPTS tW1 [pW1]).2.filterMap id) := by
  have hInv : PTSInv tW1 := by
    show (0 : Int) ≤ goRound ((((1000 : Int) - 1000 : Int) : ℚ) * 1) + 0
    rw [show ((((1000 : Int) - 1000 : Int) : ℚ) * 1) = ((0 : Int) : ℚ) by norm_num,
      goRound_intCast]
    norm_num
  have hrtp : (0 : ℚ) ≤ tW1.rtpDuration := by norm_num [tW1]
  have hnr : NoResetRun tW1 [pW1] := ⟨by decide, trivial⟩
  exact ⟨⟨hInv, hrtp, hnr⟩, claim_C1_pts_monotone_no_reset tW1 [pW1] hInv hrtp hnr⟩

/-- C1 counterexample: a three-packet in-order trace on a track anchored by
`Initialize` (clock rate 10^9, audio) on which every `GetPTS` call succeeds
yet the PTS values go backwards: 0, then 20000000 (the reset-repair of the
sequence jump to 50000 with raw timestamp 4000000000), then -3950000000 for
the next packet (sequence number continues, raw timestamp 30000000 — above
`lastTS`, so no wrap correction and no reset — but far below the new
`firstTS` anchor 3980000000). -/
theorem claim_C1_counterexample :
    tX0 = Initialize (newTrackSynchronizer 1000000000 true) pX1 0 0 ∧
    (runGetPTS tX0 [pX1, pX2, pX3]).2 = [some 0, some 20000000, some (-3950000000)] ∧
    ¬List.Chain' (· ≤ ·) ((runGetPTS tX0 [pX1, pX2, pX3]).2.filterMap id) := by
  have hreach : tX0 = Initialize (newTrackSynchronizer 1000000000 true) pX1 0 0 := by
    norm_num [Initialize, newTrackSynchronizer, tX0, pX1]
  have e1 : GetPTS tX0 pX1 =
      { t := tX1, pkt := { sequenceNumber := 1, timestamp := 1000 }, result := some 0 } := by
    norm_num [GetPTS, adjust, resetTriggered, getFrameDurationRTP, getElapsed, goRound,
      tX0, tX1, pX1, maxSNDropout, unwrapTS_of_ge]
  have e2 : GetPTS tX1 pX2 =
      { t := tX2, pkt := { sequenceNumber := 2, timestamp := 4000000000 },
        result := some 20000000 } := by
    norm_num [GetPTS, adjust, resetTriggered, getFrameDurationRTP, getElapsed, goRound,
      tX1, tX2, pX2, maxSNDropout, unwrapTS_of_ge]
  have e3 : (GetPTS tX2 pX3).result = some (-3950000000) := by
    norm_num [GetPTS, adjust, resetTriggered, getFrameDurationRTP, getElapsed, goRound,
      tX2, pX3, maxSNDropout, unwrapTS_of_ge]
  have hrun : (runGetPTS tX0 [pX1, pX2, pX3]).2 =
      [some 0, some 20000000, some (-3950000000)] := by
    simp only [runGetPTS, e1, e2, e3]
  refine ⟨hreach, hrun, ?_⟩
  rw [hrun]
  simp only [List.filterMap_cons, List.filterMap_nil, id]
  norm_num [List.chain'_cons]

end LivekitSync
